import Mathlib

/-!
# TLS echo server (`CPP_SERVE.cpp`): connection lifecycle

A shallow embedding of `SSLServer::handle_client` and of the accept loop of
`SSLServer::start`.

* The OpenSSL connection object is an abstract `Channel`: a state type with the
  two calls whose results steer the control flow, `SSL_read` and `SSL_write`.
* A run produces the list of library calls it makes (`Op`), in program order.
  Console output (`std::cout`, `std::cerr`, `perror`) is not recorded.
* The `while` loop of `handle_client` is bounded by a fuel counter that counts
  loop iterations; a run that uses up its fuel is reported as such.
-/

namespace SSLServer

/-- One `char` of the receive buffer. -/
abbrev Byte := UInt8

/-- `#define BUFFER_SIZE 4096`. -/
def BUFFER_SIZE : Nat := 4096

/-- The UTF-8 bytes of the string literal `"服务器已收到: "` of line 136. -/
def ack_literal : List Byte :=
  [230, 156, 141, 229, 138, 161, 229, 153, 168, 229, 183, 178,
   230, 148, 182, 229, 136, 176, 58, 32]

/-- The bytes of the string literal `"quit"` of line 147 (without its terminator). -/
def quit_literal : List Byte := [113, 117, 105, 116]

/-- The C string that starts at the beginning of a `char` array: the bytes before
the first NUL. This is what `std::string(buffer)`, `operator<<` and `strcmp` see. -/
def c_str (buffer : List Byte) : List Byte :=
  buffer.takeWhile (fun b => b != 0)

/-- The effect of a read on the buffer: the bytes received overwrite the front of
the array, the rest of the array keeps its contents. -/
def store (buffer data : List Byte) : List Byte :=
  data ++ buffer.drop data.length

/-- `memset(buffer, 0, sizeof(buffer))`, also the initial `char buffer[BUFFER_SIZE] = {0}`. -/
def zeroed : List Byte := List.replicate BUFFER_SIZE 0

/-- What one `SSL_read(ssl, buffer, num)` call hands back: its return value and the
bytes it stored at the front of `buffer`. -/
structure ReadResult where
  ret : Int
  data : List Byte
deriving DecidableEq

/-- The contract of `SSL_read`: a positive return value is the number of bytes
stored, and it never exceeds the number of bytes asked for. -/
def ReadResult.ok (num : Nat) (r : ReadResult) : Prop :=
  0 < r.ret → r.ret ≤ (num : Int) ∧ (r.data.length : Int) = r.ret

/-- The connection as the program sees it: each call returns its result and the
next state of the connection. -/
structure Channel (σ : Type) where
  SSL_read : σ → Nat → ReadResult × σ
  SSL_write : σ → List Byte → Int × σ

/-- A channel whose every read honours the `SSL_read` contract. -/
def Channel.WF {σ : Type} (ch : Channel σ) : Prop :=
  ∀ (s : σ) (num : Nat), (ch.SSL_read s num).1.ok num

/-- The library and system calls made by `handle_client` and by the accept loop. -/
inductive Op where
  | SSL_get_cipher
  | SSL_read (num : Nat) (r : ReadResult)
  | SSL_write (payload : List Byte) (ret : Int)
  | SSL_get_error (ret : Int)
  | SSL_shutdown
  | SSL_free
  | accept (fd : Int)
  | SSL_new
  | SSL_set_fd (fd : Int)
  | SSL_accept (ret : Int)
  | ERR_print_errors_fp
  | close (fd : Int)
  | spawn_handle_client
deriving DecidableEq

/-- The call is an `SSL_read`. -/
def Op.isRead : Op → Bool
  | .SSL_read _ _ => true
  | _ => false

/-- The call is an `SSL_write`. -/
def Op.isWrite : Op → Bool
  | .SSL_write _ _ => true
  | _ => false

/-- The call transfers data on the connection or ends it: `SSL_read`, `SSL_write`,
`SSL_shutdown`, `SSL_free`. The queries `SSL_get_cipher` and `SSL_get_error`
only inspect the connection object. -/
def Op.isChannelOp : Op → Bool
  | .SSL_read _ _ => true
  | .SSL_write _ _ => true
  | .SSL_shutdown => true
  | .SSL_free => true
  | _ => false

/-- A read or write that reported failure (return value `<= 0`). -/
def Op.failed : Op → Bool
  | .SSL_read _ r => decide (r.ret ≤ 0)
  | .SSL_write _ ret => decide (ret ≤ 0)
  | _ => false

/-- How the `while` loop of `handle_client` ends. -/
inductive LoopExit where
  /-- The loop was left (condition false, or `break`) with this value of `bytes`. -/
  | left (bytes : Int)
  /-- The iteration bound of the model was reached. -/
  | out_of_fuel
  /-- The store `buffer[bytes] = 0` would fall outside the array. -/
  | fault
deriving DecidableEq

/-- Lines 132 and 136: store the terminator at `buffer[bytes]`, then build
`"服务器已收到: " + std::string(buffer)`. The buffer passed in already holds the
bytes of the read. Returns the buffer and the response, or `none` when
`bytes` is not an index of the array. -/
def compose_response (buffer : List Byte) (bytes : Int) : Option (List Byte × List Byte) :=
  if bytes.toNat < BUFFER_SIZE then
    let buffer1 := buffer.set bytes.toNat 0
    some (buffer1, ack_literal ++ c_str buffer1)
  else
    none

/-- The `while` loop of `handle_client` (lines 131-153), started with the given
contents of `buffer`. Returns the calls made and the way the loop ended. -/
def handle_client_loop {σ : Type} (ch : Channel σ) : Nat → σ → List Byte → List Op × LoopExit
  | 0, _, _ => ([], .out_of_fuel)
  | fuel + 1, s, buffer =>
    let (r, s1) := ch.SSL_read s (BUFFER_SIZE - 1)
    let bytes := r.ret
    if bytes > 0 then
      match compose_response (store buffer r.data) bytes with
      | none => ([.SSL_read (BUFFER_SIZE - 1) r], .fault)
      | some (buffer1, response) =>
        let (send_bytes, s2) := ch.SSL_write s1 response
        if send_bytes ≤ 0 then
          ([.SSL_read (BUFFER_SIZE - 1) r, .SSL_write response send_bytes,
            .SSL_get_error send_bytes], .left bytes)
        else if c_str buffer1 = quit_literal then
          ([.SSL_read (BUFFER_SIZE - 1) r, .SSL_write response send_bytes], .left bytes)
        else
          let (t, e) := handle_client_loop ch fuel s2 zeroed
          (.SSL_read (BUFFER_SIZE - 1) r :: .SSL_write response send_bytes :: t, e)
    else
      ([.SSL_read (BUFFER_SIZE - 1) r], .left bytes)

/-- The loop of `handle_client` with line 152 (`memset`) deleted: the buffer is
carried into the next iteration as the previous one left it. Not the program;
used only to compare with `handle_client_loop`. -/
def handle_client_loop_no_memset {σ : Type} (ch : Channel σ) :
    Nat → σ → List Byte → List Op × LoopExit
  | 0, _, _ => ([], .out_of_fuel)
  | fuel + 1, s, buffer =>
    let (r, s1) := ch.SSL_read s (BUFFER_SIZE - 1)
    let bytes := r.ret
    if bytes > 0 then
      match compose_response (store buffer r.data) bytes with
      | none => ([.SSL_read (BUFFER_SIZE - 1) r], .fault)
      | some (buffer1, response) =>
        let (send_bytes, s2) := ch.SSL_write s1 response
        if send_bytes ≤ 0 then
          ([.SSL_read (BUFFER_SIZE - 1) r, .SSL_write response send_bytes,
            .SSL_get_error send_bytes], .left bytes)
        else if c_str buffer1 = quit_literal then
          ([.SSL_read (BUFFER_SIZE - 1) r, .SSL_write response send_bytes], .left bytes)
        else
          let (t, e) := handle_client_loop_no_memset ch fuel s2 buffer1
          (.SSL_read (BUFFER_SIZE - 1) r :: .SSL_write response send_bytes :: t, e)
    else
      ([.SSL_read (BUFFER_SIZE - 1) r], .left bytes)

/-- How a run of `handle_client` ends. -/
inductive Status where
  /-- The function returned. -/
  | returned
  /-- The iteration bound of the model was reached inside the loop. -/
  | out_of_fuel
  /-- The terminator store fell outside the array. -/
  | fault
deriving DecidableEq

/-- The calls after the loop (lines 155-165) for the value `bytes` has there. -/
def teardown (bytes : Int) : List Op :=
  (if bytes ≤ 0 then [Op.SSL_get_error bytes] else []) ++ [Op.SSL_shutdown, Op.SSL_free]

/-- `SSLServer::handle_client` (lines 124-166): the calls it makes on the
connection, in order, and how the run ends. -/
def handle_client {σ : Type} (ch : Channel σ) (fuel : Nat) (s : σ) : List Op × Status :=
  match handle_client_loop ch fuel s zeroed with
  | (t, .left bytes) => (Op.SSL_get_cipher :: t ++ teardown bytes, .returned)
  | (t, .out_of_fuel) => (Op.SSL_get_cipher :: t, .out_of_fuel)
  | (t, .fault) => (Op.SSL_get_cipher :: t, .fault)

/-- A finite script of I/O results: what the successive `SSL_read` calls and the
successive `SSL_write` calls return. -/
structure Script where
  reads : List ReadResult
  writes : List Int
deriving DecidableEq

/-- The channel that plays a script. When the scripted results are used up the
peer is gone: `SSL_read` returns 0 and `SSL_write` returns -1. -/
def scripted : Channel Script where
  SSL_read := fun s _ =>
    match s.reads with
    | [] => (⟨0, []⟩, s)
    | r :: rs => (r, { s with reads := rs })
  SSL_write := fun s _ =>
    match s.writes with
    | [] => (-1, s)
    | w :: ws => (w, { s with writes := ws })

/-- A connection on which the peer has sent the given TLS records and then closed,
and on which every write succeeds. `SSL_read` returns at most `num` bytes of the
record at the front; the bytes of that record it did not return stay pending
and are returned by the following calls (the behaviour OpenSSL documents for
`SSL_read`). -/
def stream : Channel (List (List Byte)) where
  SSL_read := fun pending num =>
    match pending with
    | [] => (⟨0, []⟩, [])
    | record :: rest =>
      if record.length ≤ num then
        (⟨record.length, record⟩, rest)
      else
        (⟨num, record.take num⟩, record.drop num :: rest)
  SSL_write := fun pending payload => ((payload.length : Int), pending)

/-- One pass through the body of the accept loop of `start` (lines 179-205),
given what `accept` and `SSL_accept` return. Returns the calls made and whether
a `handle_client` thread was started; every path goes on to the next pass. -/
def start_iteration (client_fd : Int) (accept_ret : Int) : List Op × Bool :=
  if client_fd < 0 then
    ([.accept client_fd], false)
  else if accept_ret ≤ 0 then
    ([.accept client_fd, .SSL_new, .SSL_set_fd client_fd, .SSL_accept accept_ret,
      .ERR_print_errors_fp, .SSL_shutdown, .SSL_free, .close client_fd], false)
  else
    ([.accept client_fd, .SSL_new, .SSL_set_fd client_fd, .SSL_accept accept_ret,
      .spawn_handle_client], true)

/-- The accept loop `while (true)` of `start`, for as many passes as there are
scripted results of `accept` and `SSL_accept`. -/
def start_loop : List (Int × Int) → List Op
  | [] => []
  | (client_fd, accept_ret) :: rest => (start_iteration client_fd accept_ret).1 ++ start_loop rest

/-- Everything done for one accepted connection: the pass of the accept loop that
accepted it, followed by the calls of the `handle_client` thread when one was
started. -/
def connection_trace {σ : Type} (ch : Channel σ) (fuel : Nat) (s : σ)
    (client_fd : Int) (accept_ret : Int) : List Op × Status :=
  match start_iteration client_fd accept_ret with
  | (ops, true) => (ops ++ (handle_client ch fuel s).1, (handle_client ch fuel s).2)
  | (ops, false) => (ops, .returned)

/-- What follows the loop, by the way it ended. -/
def ending : LoopExit → List Op
  | .left bytes => teardown bytes
  | _ => []

/-- The status of the run, by the way the loop ended. -/
def LoopExit.status : LoopExit → Status
  | .left _ => .returned
  | .out_of_fuel => .out_of_fuel
  | .fault => .fault

/-- The calls that occur inside the loop: `SSL_read`, `SSL_write`, `SSL_get_error`. -/
def Op.isLoopOp : Op → Bool
  | .SSL_read _ _ => true
  | .SSL_write _ _ => true
  | .SSL_get_error _ => true
  | _ => false

/-! ### Concrete sessions used as test inputs -/

/-- The peer sends the three bytes `a`, NUL, `b`; the write succeeds; the peer closes. -/
def nul_script : Script := ⟨[⟨3, [97, 0, 98]⟩], [21]⟩

/-- The peer sends the six bytes `quit`, NUL, `x`; the write succeeds. -/
def quit_nul_script : Script := ⟨[⟨6, [113, 117, 105, 116, 0, 120]⟩], [24]⟩

/-- The peer sends `hi`, then `quit`; both writes succeed. -/
def talk_script : Script := ⟨[⟨2, [104, 105]⟩, ⟨4, quit_literal⟩], [22, 24]⟩

/-- The peer sends `hi`; the write fails. -/
def write_error_script : Script := ⟨[⟨2, [104, 105]⟩, ⟨2, [104, 105]⟩], [-1, 22]⟩

/-- The peer sends `hi`; the write succeeds; the next read fails. -/
def read_error_script : Script := ⟨[⟨2, [104, 105]⟩, ⟨-1, []⟩, ⟨2, [104, 105]⟩], [22, 22]⟩

/-- A buffer full of bytes `0xFF`, as a previous message without NUL could leave it. -/
def junk_buffer : List Byte := List.replicate BUFFER_SIZE 255

/-- A record of 4096 bytes without NUL: 4095 times `A`, then `B`. -/
def oversize_record : List Byte := List.replicate 4095 65 ++ [66]

/-! ## The receive buffer -/

/-- The constant `ack_literal` is the UTF-8 encoding of the string literal of line 136. -/
theorem ack_literal_utf8 :
    ack_literal = "服务器已收到: ".data.flatMap String.utf8EncodeChar := by
  decide

theorem takeWhile_append_stop (p : Byte → Bool) (l : List Byte) (x : Byte) (t : List Byte)
    (hx : p x = false) : (l ++ x :: t).takeWhile p = l.takeWhile p := by
  induction l with
  | nil => simp [List.takeWhile, hx]
  | cons a l ih =>
    simp only [List.cons_append, List.takeWhile]
    cases p a <;> simp [ih]

theorem store_length (buffer data : List Byte) (h : data.length ≤ buffer.length) :
    (store buffer data).length = buffer.length := by
  simp [store]; omega

theorem store_set (buffer data : List Byte) (h : data.length < buffer.length) :
    ∃ tl, (store buffer data).set data.length 0 = data ++ 0 :: tl := by
  unfold store
  cases hd : buffer.drop data.length with
  | nil =>
    have := congrArg List.length hd
    simp at this; omega
  | cons a tl =>
    refine ⟨tl, ?_⟩
    rw [List.set_append]
    simp

theorem c_str_store_set (buffer data : List Byte) (h : data.length < buffer.length) :
    c_str ((store buffer data).set data.length 0) = c_str data := by
  obtain ⟨tl, htl⟩ := store_set buffer data h
  rw [htl]
  exact takeWhile_append_stop _ data 0 tl (by decide)

theorem c_str_length_le (data : List Byte) : (c_str data).length ≤ data.length := by
  unfold c_str
  exact (List.takeWhile_sublist _).length_le

theorem c_str_of_no_nul (data : List Byte) (h : (0 : Byte) ∉ data) : c_str data = data := by
  unfold c_str
  rw [List.takeWhile_eq_self_iff]
  intro b hb
  have : b ≠ 0 := fun e => h (e ▸ hb)
  simpa using this

/-! ## One pass through the loop -/

section Loop

variable {σ : Type} (ch : Channel σ)

theorem handle_client_eq (fuel : Nat) (s : σ) :
    handle_client ch fuel s =
      (Op.SSL_get_cipher :: (handle_client_loop ch fuel s zeroed).1 ++
          ending (handle_client_loop ch fuel s zeroed).2,
        (handle_client_loop ch fuel s zeroed).2.status) := by
  unfold handle_client
  rcases h : handle_client_loop ch fuel s zeroed with ⟨t, e⟩
  cases e <;> simp [ending, LoopExit.status]

theorem zeroed_length : zeroed.length = BUFFER_SIZE := by
  simp [zeroed]

theorem compose_response_store (buffer data : List Byte) (bytes : Int)
    (hb : buffer.length = BUFFER_SIZE) (h0 : 0 < bytes) (h1 : bytes ≤ 4095)
    (hlen : (data.length : Int) = bytes) :
    compose_response (store buffer data) bytes =
      some ((store buffer data).set data.length 0, ack_literal ++ c_str data) := by
  have hn : bytes.toNat = data.length := by omega
  have hlt : data.length < BUFFER_SIZE := by
    simp only [BUFFER_SIZE]; omega
  unfold compose_response
  rw [hn, if_pos hlt]
  simp only []
  rw [c_str_store_set buffer data (by omega)]

/-- The loop body when `SSL_read` returned `<= 0`. -/
theorem loop_read_failed (fuel : Nat) (s s1 : σ) (buffer : List Byte) (r : ReadResult)
    (hr : ch.SSL_read s (BUFFER_SIZE - 1) = (r, s1)) (h : r.ret ≤ 0) :
    handle_client_loop ch (fuel + 1) s buffer =
      ([Op.SSL_read (BUFFER_SIZE - 1) r], .left r.ret) := by
  unfold handle_client_loop
  rw [hr]
  simp only []
  rw [if_neg (by omega)]

/-- The loop body when the read delivered between 1 and 4095 bytes. -/
theorem loop_read_ok (fuel : Nat) (s s1 s2 : σ) (buffer : List Byte) (r : ReadResult) (w : Int)
    (hb : buffer.length = BUFFER_SIZE)
    (hr : ch.SSL_read s (BUFFER_SIZE - 1) = (r, s1))
    (h0 : 0 < r.ret) (h1 : r.ret ≤ 4095) (hlen : (r.data.length : Int) = r.ret)
    (hw : ch.SSL_write s1 (ack_literal ++ c_str r.data) = (w, s2)) :
    handle_client_loop ch (fuel + 1) s buffer =
      (if w ≤ 0 then
         ([Op.SSL_read (BUFFER_SIZE - 1) r, Op.SSL_write (ack_literal ++ c_str r.data) w,
            Op.SSL_get_error w], .left r.ret)
       else if c_str r.data = quit_literal then
         ([Op.SSL_read (BUFFER_SIZE - 1) r, Op.SSL_write (ack_literal ++ c_str r.data) w],
           .left r.ret)
       else
         (Op.SSL_read (BUFFER_SIZE - 1) r :: Op.SSL_write (ack_literal ++ c_str r.data) w ::
            (handle_client_loop ch fuel s2 zeroed).1,
          (handle_client_loop ch fuel s2 zeroed).2)) := by
  have hlt : r.data.length < buffer.length := by
    rw [hb]; simp only [BUFFER_SIZE]; omega
  rw [handle_client_loop, hr]
  simp only []
  rw [if_pos (by omega), compose_response_store buffer _ _ hb h0 h1 hlen]
  simp only []
  have hw2 : (ch.2 s1 (ack_literal ++ c_str r.data)) = (w, s2) := hw
  simp only [hw2, c_str_store_set buffer _ hlt]

/-- The trace of the loop is empty only when the iteration bound is hit at once;
otherwise it starts with the `SSL_read` of line 131. -/
theorem loop_head (fuel : Nat) (s : σ) (buffer : List Byte) :
    ((handle_client_loop ch fuel s buffer).1 = [] ∧
        (handle_client_loop ch fuel s buffer).2 = .out_of_fuel ∧ fuel = 0) ∨
      ∃ rest, (handle_client_loop ch fuel s buffer).1 =
        Op.SSL_read (BUFFER_SIZE - 1) (ch.SSL_read s (BUFFER_SIZE - 1)).1 :: rest := by
  cases fuel with
  | zero => left; simp [handle_client_loop]
  | succ fuel =>
    right
    simp only [handle_client_loop]
    split
    · split
      · exact ⟨_, rfl⟩
      · split
        · exact ⟨_, rfl⟩
        · split
          · exact ⟨_, rfl⟩
          · exact ⟨_, rfl⟩
    · exact ⟨_, rfl⟩

/-- The five ways one pass through the loop body can go. -/
theorem loop_cases (fuel : Nat) (s : σ) (buffer : List Byte) :
    ∃ r s1, ch.SSL_read s (BUFFER_SIZE - 1) = (r, s1) ∧
      ((r.ret ≤ 0 ∧ handle_client_loop ch (fuel + 1) s buffer =
          ([Op.SSL_read (BUFFER_SIZE - 1) r], .left r.ret)) ∨
       (0 < r.ret ∧ compose_response (store buffer r.data) r.ret = none ∧
          handle_client_loop ch (fuel + 1) s buffer =
            ([Op.SSL_read (BUFFER_SIZE - 1) r], .fault)) ∨
       (0 < r.ret ∧ ∃ buffer1 response w s2,
          compose_response (store buffer r.data) r.ret = some (buffer1, response) ∧
          ch.SSL_write s1 response = (w, s2) ∧
          ((w ≤ 0 ∧ handle_client_loop ch (fuel + 1) s buffer =
              ([Op.SSL_read (BUFFER_SIZE - 1) r, Op.SSL_write response w, Op.SSL_get_error w],
                .left r.ret)) ∨
           (0 < w ∧ c_str buffer1 = quit_literal ∧ handle_client_loop ch (fuel + 1) s buffer =
              ([Op.SSL_read (BUFFER_SIZE - 1) r, Op.SSL_write response w], .left r.ret)) ∨
           (0 < w ∧ c_str buffer1 ≠ quit_literal ∧ handle_client_loop ch (fuel + 1) s buffer =
              (Op.SSL_read (BUFFER_SIZE - 1) r :: Op.SSL_write response w ::
                 (handle_client_loop ch fuel s2 zeroed).1,
               (handle_client_loop ch fuel s2 zeroed).2))))) := by
  rcases hr : ch.SSL_read s (BUFFER_SIZE - 1) with ⟨r, s1⟩
  refine ⟨r, s1, rfl, ?_⟩
  by_cases hpos : 0 < r.ret
  · right
    cases hc : compose_response (store buffer r.data) r.ret with
    | none =>
      left
      refine ⟨hpos, rfl, ?_⟩
      rw [handle_client_loop, hr]
      simp only []
      rw [if_pos (by omega), hc]
    | some p =>
      obtain ⟨buffer1, response⟩ := p
      right
      rcases hw : ch.SSL_write s1 response with ⟨w, s2⟩
      have hw2 : ch.2 s1 response = (w, s2) := hw
      refine ⟨hpos, buffer1, response, w, s2, rfl, hw, ?_⟩
      by_cases hwpos : w ≤ 0
      · left
        refine ⟨hwpos, ?_⟩
        rw [handle_client_loop, hr]
        simp only []
        rw [if_pos (by omega), hc]
        simp only [hw2]
        rw [if_pos hwpos]
      · right
        by_cases hq : c_str buffer1 = quit_literal
        · left
          refine ⟨by omega, hq, ?_⟩
          rw [handle_client_loop, hr]
          simp only []
          rw [if_pos (by omega), hc]
          simp only [hw2]
          rw [if_neg hwpos, if_pos hq]
        · right
          refine ⟨by omega, hq, ?_⟩
          rw [handle_client_loop, hr]
          simp only []
          rw [if_pos (by omega), hc]
          simp only [hw2]
          rw [if_neg hwpos, if_neg hq]
  · left
    exact ⟨by omega, loop_read_failed ch fuel s s1 buffer r hr (by omega)⟩

theorem loop_ops (fuel : Nat) (s : σ) (buffer : List Byte) :
    ∀ o ∈ (handle_client_loop ch fuel s buffer).1, o.isLoopOp = true := by
  induction fuel generalizing s buffer with
  | zero => simp [handle_client_loop]
  | succ fuel ih =>
    obtain ⟨r, s1, -, h | ⟨-, -, h⟩ | ⟨-, b1, resp, w, s2, -, -, ⟨-, h⟩ | ⟨-, -, h⟩ | ⟨-, -, h⟩⟩⟩ :=
      loop_cases ch fuel s buffer
    · rw [h.2]; simp [Op.isLoopOp]
    · rw [h]; simp [Op.isLoopOp]
    · rw [h]; simp [Op.isLoopOp]
    · rw [h]; simp [Op.isLoopOp]
    · rw [h]
      intro o ho
      simp only [List.mem_cons] at ho
      rcases ho with rfl | rfl | ho
      · rfl
      · rfl
      · exact ih s2 zeroed o ho

/-- Every `SSL_read` in the trace of the loop is the first call of a pass through
the loop body, entered with a buffer of `BUFFER_SIZE` bytes; what follows it in
the trace is the rest of the run from there. -/
theorem loop_split (fuel : Nat) (s : σ) (buffer : List Byte) (hb : buffer.length = BUFFER_SIZE)
    (pre post : List Op) (num : Nat) (r : ReadResult)
    (h : (handle_client_loop ch fuel s buffer).1 = pre ++ Op.SSL_read num r :: post) :
    ∃ fuel1 s0 s1 buffer0, buffer0.length = BUFFER_SIZE ∧ num = BUFFER_SIZE - 1 ∧
      ch.SSL_read s0 (BUFFER_SIZE - 1) = (r, s1) ∧
      (handle_client_loop ch (fuel1 + 1) s0 buffer0).1 = Op.SSL_read num r :: post ∧
      (handle_client_loop ch (fuel1 + 1) s0 buffer0).2 = (handle_client_loop ch fuel s buffer).2 := by
  induction fuel generalizing s buffer pre with
  | zero => simp [handle_client_loop] at h
  | succ fuel ih =>
    cases pre with
    | nil =>
      rcases loop_head ch (fuel + 1) s buffer with ⟨-, -, h0⟩ | ⟨rest, hh⟩
      · omega
      · rw [hh] at h
        simp only [List.nil_append, List.cons.injEq, Op.SSL_read.injEq] at h
        obtain ⟨⟨hn, hr⟩, hpost⟩ := h
        subst hn hr hpost
        exact ⟨fuel, s, (ch.SSL_read s (BUFFER_SIZE - 1)).2, buffer, hb, rfl, rfl, hh, rfl⟩
    | cons a pre1 =>
      obtain ⟨r0, s1, -, h0 | ⟨-, -, h0⟩ | ⟨-, b1, resp, w, s2, -, -, ⟨-, h0⟩ | ⟨-, -, h0⟩ | ⟨-, -, h0⟩⟩⟩ :=
        loop_cases ch fuel s buffer
      · rw [h0.2] at h; simp at h
      · rw [h0] at h; simp at h
      · rw [h0] at h
        simp only [List.cons_append, List.cons.injEq] at h
        obtain ⟨-, h⟩ := h
        cases pre1 with
        | nil => simp at h
        | cons b pre2 =>
          simp only [List.cons_append, List.cons.injEq] at h
          obtain ⟨-, h⟩ := h
          cases pre2 <;> simp at h
      · rw [h0] at h
        simp only [List.cons_append, List.cons.injEq] at h
        obtain ⟨-, h⟩ := h
        cases pre1 with
        | nil => simp at h
        | cons b pre2 => simp at h
      · rw [h0] at h ⊢
        simp only [List.cons_append, List.cons.injEq] at h
        obtain ⟨-, h⟩ := h
        cases pre1 with
        | nil => simp at h
        | cons b pre2 =>
          simp only [List.cons_append, List.cons.injEq] at h
          obtain ⟨-, h⟩ := h
          exact ih s2 zeroed zeroed_length pre2 h

theorem ending_no_loop_op (e : LoopExit) : ∀ o ∈ ending e, o.isLoopOp = true → ∃ b, o = Op.SSL_get_error b := by
  intro o ho h
  cases e with
  | left bytes =>
    simp only [ending, teardown] at ho
    split at ho
    · simp only [List.cons_append, List.nil_append, List.mem_cons, List.mem_singleton,
        List.mem_nil_iff, or_false] at ho
      rcases ho with rfl | rfl | rfl
      · exact ⟨_, rfl⟩
      · simp [Op.isLoopOp] at h
      · simp [Op.isLoopOp] at h
    · simp only [List.nil_append, List.mem_cons, List.mem_singleton, List.mem_nil_iff,
        or_false] at ho
      rcases ho with rfl | rfl
      · simp [Op.isLoopOp] at h
      · simp [Op.isLoopOp] at h
  | out_of_fuel => simp [ending] at ho
  | fault => simp [ending] at ho

/-- A position of the trace of `handle_client` that lies inside the loop: the
trace splits there into a part of the loop trace and the calls after the loop. -/
theorem handle_client_split_at (fuel : Nat) (s : σ) (pre post : List Op) (o : Op)
    (ho : o.isRead = true ∨ o.isWrite = true)
    (h : (handle_client ch fuel s).1 = pre ++ o :: post) :
    ∃ pre0 post0, pre = Op.SSL_get_cipher :: pre0 ∧
      (handle_client_loop ch fuel s zeroed).1 = pre0 ++ o :: post0 ∧
      post = post0 ++ ending (handle_client_loop ch fuel s zeroed).2 := by
  rw [handle_client_eq] at h
  simp only [] at h
  cases pre with
  | nil =>
    simp only [List.nil_append, List.cons_append, List.cons.injEq] at h
    obtain ⟨rfl, -⟩ := h
    simp [Op.isRead, Op.isWrite] at ho
  | cons a pre0 =>
    simp only [List.cons_append, List.cons.injEq] at h
    obtain ⟨rfl, h⟩ := h
    rw [List.append_eq_append_iff] at h
    rcases h with ⟨c, hc1, hc2⟩ | ⟨c, hc1, hc2⟩
    · exfalso
      have hm : o ∈ ending (handle_client_loop ch fuel s zeroed).2 := by
        rw [hc2]; simp
      have hl : o.isLoopOp = true := by
        cases o <;> simp [Op.isRead, Op.isWrite, Op.isLoopOp] at ho ⊢
      obtain ⟨b, rfl⟩ := ending_no_loop_op _ o hm hl
      simp [Op.isRead, Op.isWrite] at ho
    · cases c with
      | nil =>
        exfalso
        simp only [List.nil_append] at hc2
        have hm : o ∈ ending (handle_client_loop ch fuel s zeroed).2 := by
          rw [← hc2]; simp
        have hl : o.isLoopOp = true := by
          cases o <;> simp [Op.isRead, Op.isWrite, Op.isLoopOp] at ho ⊢
        obtain ⟨b, rfl⟩ := ending_no_loop_op _ o hm hl
        simp [Op.isRead, Op.isWrite] at ho
      | cons d c =>
        simp only [List.cons_append, List.cons.injEq] at hc2
        obtain ⟨rfl, rfl⟩ := hc2
        exact ⟨pre0, c, rfl, hc1, rfl⟩

/-- What follows an `SSL_read` that returned `<= 0`: the calls after the loop. -/
theorem after_failed_read (fuel : Nat) (s : σ) (pre post : List Op) (num : Nat) (r : ReadResult)
    (h : (handle_client ch fuel s).1 = pre ++ Op.SSL_read num r :: post) (h0 : r.ret ≤ 0) :
    post = [Op.SSL_get_error r.ret, Op.SSL_shutdown, Op.SSL_free] ∧
      (handle_client ch fuel s).2 = .returned := by
  obtain ⟨pre0, post0, -, hl, hpost⟩ := handle_client_split_at ch fuel s pre post (Op.SSL_read num r) (Or.inl rfl) h
  obtain ⟨fuel1, s0, s1, buffer0, -, -, hr, ht, he⟩ :=
    loop_split ch fuel s zeroed zeroed_length pre0 post0 num r hl
  rw [handle_client_eq]
  simp only []
  rw [hpost, ← he]
  rw [loop_read_failed ch fuel1 s0 s1 buffer0 r hr h0] at ht ⊢
  simp only [List.cons.injEq, true_and] at ht
  obtain ⟨-, rfl⟩ := ht
  simp [ending, teardown, h0, LoopExit.status]

/-- What follows an `SSL_read` that returned a positive value, whatever the read
stored: either the terminator store faults, or one `SSL_write` of the composed
response follows, and then the calls after the loop (failed write, or the
message was `quit`) or the next `SSL_read`. -/
theorem after_read_gen (fuel : Nat) (s : σ) (pre post : List Op) (num : Nat) (r : ReadResult)
    (h : (handle_client ch fuel s).1 = pre ++ Op.SSL_read num r :: post) (h0 : 0 < r.ret) :
    ∃ buffer0, buffer0.length = BUFFER_SIZE ∧
      ((compose_response (store buffer0 r.data) r.ret = none ∧ post = [] ∧
          (handle_client ch fuel s).2 = .fault) ∨
       ∃ buffer1 response w,
         compose_response (store buffer0 r.data) r.ret = some (buffer1, response) ∧
         ((w ≤ 0 ∧ post = [Op.SSL_write response w, Op.SSL_get_error w,
              Op.SSL_shutdown, Op.SSL_free] ∧ (handle_client ch fuel s).2 = .returned) ∨
          (0 < w ∧ c_str buffer1 = quit_literal ∧
              post = [Op.SSL_write response w, Op.SSL_shutdown, Op.SSL_free] ∧
              (handle_client ch fuel s).2 = .returned) ∨
          (0 < w ∧ c_str buffer1 ≠ quit_literal ∧
              ((post = [Op.SSL_write response w] ∧
                  (handle_client ch fuel s).2 = .out_of_fuel) ∨
               ∃ r1 rest, post = Op.SSL_write response w ::
                 Op.SSL_read (BUFFER_SIZE - 1) r1 :: rest)))) := by
  obtain ⟨pre0, post0, -, hl, hpost⟩ := handle_client_split_at ch fuel s pre post (Op.SSL_read num r) (Or.inl rfl) h
  obtain ⟨fuel1, s0, s1, buffer0, hb, -, hr, ht, he⟩ :=
    loop_split ch fuel s zeroed zeroed_length pre0 post0 num r hl
  refine ⟨buffer0, hb, ?_⟩
  rw [handle_client_eq]
  simp only []
  rw [hpost, ← he]
  obtain ⟨r0, s1x, hr0, hx | ⟨-, hc, hx⟩ | ⟨-, b1, resp, w, s2, hc, -, ⟨hw, hx⟩ | ⟨hw, hq, hx⟩ | ⟨hw, hq, hx⟩⟩⟩ :=
    loop_cases ch fuel1 s0 buffer0
  all_goals
    rw [hr] at hr0
    simp only [Prod.mk.injEq] at hr0
    obtain ⟨rfl, rfl⟩ := hr0
  · omega
  · left
    rw [hx] at ht ⊢
    simp only [List.cons.injEq, true_and] at ht
    obtain ⟨-, rfl⟩ := ht
    simp [hc, ending, LoopExit.status]
  · right
    refine ⟨b1, resp, w, hc, Or.inl ⟨hw, ?_⟩⟩
    rw [hx] at ht ⊢
    simp only [List.cons.injEq, true_and] at ht
    obtain ⟨-, rfl⟩ := ht
    have : ¬ r.ret ≤ 0 := by omega
    simp [ending, teardown, this, LoopExit.status]
  · right
    refine ⟨b1, resp, w, hc, Or.inr (Or.inl ⟨hw, hq, ?_⟩)⟩
    rw [hx] at ht ⊢
    simp only [List.cons.injEq, true_and] at ht
    obtain ⟨-, rfl⟩ := ht
    have : ¬ r.ret ≤ 0 := by omega
    simp [ending, teardown, this, LoopExit.status]
  · right
    refine ⟨b1, resp, w, hc, Or.inr (Or.inr ⟨hw, hq, ?_⟩)⟩
    rw [hx] at ht ⊢
    simp only [List.cons.injEq, true_and] at ht
    obtain ⟨-, rfl⟩ := ht
    rcases loop_head ch fuel1 s2 zeroed with ⟨h1, h2, -⟩ | ⟨rest, hrest⟩
    · left
      rw [h1, h2]
      simp [ending, LoopExit.status]
    · right
      rw [hrest]
      exact ⟨_, _, rfl⟩

/-- What follows an `SSL_read` that delivered between 1 and 4095 bytes: one
`SSL_write` of the prefix followed by the C string of the bytes delivered. -/
theorem after_read (fuel : Nat) (s : σ) (pre post : List Op) (num : Nat) (r : ReadResult)
    (h : (handle_client ch fuel s).1 = pre ++ Op.SSL_read num r :: post)
    (h0 : 0 < r.ret) (h1 : r.ret ≤ 4095) (hlen : (r.data.length : Int) = r.ret) :
    ∃ w,
      (w ≤ 0 ∧ post = [Op.SSL_write (ack_literal ++ c_str r.data) w, Op.SSL_get_error w,
          Op.SSL_shutdown, Op.SSL_free] ∧ (handle_client ch fuel s).2 = .returned) ∨
      (0 < w ∧ c_str r.data = quit_literal ∧
          post = [Op.SSL_write (ack_literal ++ c_str r.data) w, Op.SSL_shutdown, Op.SSL_free] ∧
          (handle_client ch fuel s).2 = .returned) ∨
      (0 < w ∧ c_str r.data ≠ quit_literal ∧
          ((post = [Op.SSL_write (ack_literal ++ c_str r.data) w] ∧
              (handle_client ch fuel s).2 = .out_of_fuel) ∨
           ∃ r1 rest, post = Op.SSL_write (ack_literal ++ c_str r.data) w ::
             Op.SSL_read (BUFFER_SIZE - 1) r1 :: rest)) := by
  obtain ⟨buffer0, hb, hg⟩ := after_read_gen ch fuel s pre post num r h h0
  have hc := compose_response_store buffer0 r.data r.ret hb h0 h1 hlen
  have hlt : r.data.length < buffer0.length := by
    rw [hb]; simp only [BUFFER_SIZE]; omega
  rw [hc] at hg
  rcases hg with ⟨hn, -⟩ | ⟨b1, resp, w, hsome, hg⟩
  · simp at hn
  · simp only [Option.some.injEq, Prod.mk.injEq] at hsome
    obtain ⟨rfl, rfl⟩ := hsome
    rw [c_str_store_set buffer0 r.data hlt] at hg
    exact ⟨w, hg⟩

/-- Every `SSL_write` in the trace of the loop comes right after the `SSL_read` of
the same pass, and its payload is the response composed from what that read
stored. -/
theorem loop_before_write (fuel : Nat) (s : σ) (buffer : List Byte)
    (hb : buffer.length = BUFFER_SIZE) (pre post : List Op) (p : List Byte) (w : Int)
    (h : (handle_client_loop ch fuel s buffer).1 = pre ++ Op.SSL_write p w :: post) :
    ∃ pre0 r buffer0 buffer1 s0 s1, pre = pre0 ++ [Op.SSL_read (BUFFER_SIZE - 1) r] ∧ 0 < r.ret ∧
      buffer0.length = BUFFER_SIZE ∧
      compose_response (store buffer0 r.data) r.ret = some (buffer1, p) ∧
      ch.SSL_read s0 (BUFFER_SIZE - 1) = (r, s1) := by
  induction fuel generalizing s buffer pre with
  | zero => simp [handle_client_loop] at h
  | succ fuel ih =>
    obtain ⟨r0, s1, hr0, h0 | ⟨-, -, h0⟩ | ⟨hpos, b1, resp, w0, s2, hc, -, ⟨-, h0⟩ | ⟨-, -, h0⟩ | ⟨-, -, h0⟩⟩⟩ :=
      loop_cases ch fuel s buffer
    · rw [h0.2] at h
      cases pre <;> simp at h
    · rw [h0] at h
      cases pre <;> simp at h
    · rw [h0] at h
      cases pre with
      | nil => simp at h
      | cons a pre1 =>
        cases pre1 with
        | nil =>
          simp only [List.cons_append, List.nil_append, List.cons.injEq, Op.SSL_write.injEq] at h
          obtain ⟨rfl, ⟨rfl, rfl⟩, -⟩ := h
          exact ⟨[], r0, buffer, b1, s, s1, rfl, hpos, hb, hc, hr0⟩
        | cons b pre2 =>
          simp only [List.cons_append, List.cons.injEq] at h
          obtain ⟨-, -, h⟩ := h
          cases pre2 with
          | nil => simp at h
          | cons c pre3 => simp at h
    · rw [h0] at h
      cases pre with
      | nil => simp at h
      | cons a pre1 =>
        cases pre1 with
        | nil =>
          simp only [List.cons_append, List.nil_append, List.cons.injEq, Op.SSL_write.injEq] at h
          obtain ⟨rfl, ⟨rfl, rfl⟩, -⟩ := h
          exact ⟨[], r0, buffer, b1, s, s1, rfl, hpos, hb, hc, hr0⟩
        | cons b pre2 =>
          simp only [List.cons_append, List.cons.injEq] at h
          obtain ⟨-, -, h⟩ := h
          cases pre2 <;> simp at h
    · rw [h0] at h
      cases pre with
      | nil => simp at h
      | cons a pre1 =>
        cases pre1 with
        | nil =>
          simp only [List.cons_append, List.nil_append, List.cons.injEq, Op.SSL_write.injEq] at h
          obtain ⟨rfl, ⟨rfl, rfl⟩, -⟩ := h
          exact ⟨[], r0, buffer, b1, s, s1, rfl, hpos, hb, hc, hr0⟩
        | cons b pre2 =>
          simp only [List.cons_append, List.cons.injEq] at h
          obtain ⟨rfl, rfl, h⟩ := h
          obtain ⟨pre0, r, buffer0, buffer1, s3, s4, rfl, hr, hb0, hc0, hr3⟩ :=
            ih s2 zeroed zeroed_length pre2 h
          exact ⟨_ :: _ :: pre0, r, buffer0, buffer1, s3, s4, rfl, hr, hb0, hc0, hr3⟩

/-- Every `SSL_write` in the trace of `handle_client` comes right after the
`SSL_read` of the same pass through the loop. -/
theorem before_write (fuel : Nat) (s : σ) (pre post : List Op) (p : List Byte) (w : Int)
    (h : (handle_client ch fuel s).1 = pre ++ Op.SSL_write p w :: post) :
    ∃ pre0 r, pre = pre0 ++ [Op.SSL_read (BUFFER_SIZE - 1) r] ∧ 0 < r.ret := by
  obtain ⟨pre1, post1, rfl, hl, -⟩ :=
    handle_client_split_at ch fuel s pre post (Op.SSL_write p w) (Or.inr rfl) h
  obtain ⟨pre0, r, -, -, -, -, rfl, hr, -, -, -⟩ :=
    loop_before_write ch fuel s zeroed zeroed_length pre1 post1 p w hl
  exact ⟨Op.SSL_get_cipher :: pre0, r, rfl, hr⟩

end Loop

/-! ## The session: `handle_client` -/

section Session

variable {σ : Type} (ch : Channel σ)

/-- C1 (as amended): in every run of `handle_client`, an `SSL_read` that returned
`n` bytes `M`, `1 <= n <= 4095`, is followed at once by one `SSL_write` whose
payload is the 20-byte prefix followed by the bytes of `M` before its first NUL
byte; the call after that write is not another write. When `M` holds no NUL
byte the payload is the prefix followed by all of `M`, `20 + n` bytes. -/
theorem read_is_answered_by_one_write (fuel : Nat) (s : σ) (pre post : List Op) (num : Nat)
    (r : ReadResult) (h : (handle_client ch fuel s).1 = pre ++ Op.SSL_read num r :: post)
    (h0 : 1 ≤ r.ret) (h1 : r.ret ≤ 4095) (hlen : (r.data.length : Int) = r.ret) :
    ack_literal.length = 20 ∧
    (∃ w rest, post = Op.SSL_write (ack_literal ++ r.data.takeWhile (fun b => b != 0)) w :: rest ∧
      ∀ o, rest.head? = some o → o.isWrite = false) ∧
    ((0 : Byte) ∉ r.data →
      ∃ w rest, post = Op.SSL_write (ack_literal ++ r.data) w :: rest ∧
        ((ack_literal ++ r.data).length : Int) = 20 + r.ret) := by
  have key : ∃ w rest, post = Op.SSL_write (ack_literal ++ c_str r.data) w :: rest ∧
      ∀ o, rest.head? = some o → o.isWrite = false := by
    obtain ⟨w, ⟨-, hp, -⟩ | ⟨-, -, hp, -⟩ | ⟨-, -, ⟨hp, -⟩ | ⟨r1, rest, hp⟩⟩⟩ :=
      after_read ch fuel s pre post num r h (by omega) h1 hlen
    · exact ⟨w, _, hp, by simp [Op.isWrite]⟩
    · exact ⟨w, _, hp, by simp [Op.isWrite]⟩
    · exact ⟨w, _, hp, by simp⟩
    · exact ⟨w, _, hp, by simp [Op.isWrite]⟩
  refine ⟨by decide, key, fun hnul => ?_⟩
  obtain ⟨w, rest, hp, -⟩ := key
  rw [c_str_of_no_nul r.data hnul] at hp
  refine ⟨w, rest, hp, ?_⟩
  have : ack_literal.length = 20 := by decide
  rw [List.length_append, this]
  push_cast
  omega

/-- C2: when `handle_client` returns, its trace ends with `SSL_shutdown` followed
by `SSL_free`, and neither call occurs anywhere before. -/
theorem shutdown_and_free_once_at_end (fuel : Nat) (s : σ)
    (h : (handle_client ch fuel s).2 = .returned) :
    ∃ pre, (handle_client ch fuel s).1 = pre ++ [Op.SSL_shutdown, Op.SSL_free] ∧
      Op.SSL_shutdown ∉ pre ∧ Op.SSL_free ∉ pre := by
  rw [handle_client_eq] at h ⊢
  simp only [] at h ⊢
  have hops := loop_ops ch fuel s zeroed
  rcases hl : handle_client_loop ch fuel s zeroed with ⟨t, e⟩
  rw [hl] at h hops
  simp only [] at h hops ⊢
  cases e with
  | out_of_fuel => simp [LoopExit.status] at h
  | fault => simp [LoopExit.status] at h
  | left bytes =>
    refine ⟨Op.SSL_get_cipher :: t ++ (if bytes ≤ 0 then [Op.SSL_get_error bytes] else []), ?_, ?_, ?_⟩
    · simp [ending, teardown]
    · intro hm
      simp only [List.cons_append, List.mem_cons, List.mem_append] at hm
      rcases hm with hm | hm | hm
      · cases hm
      · have := hops _ hm
        simp [Op.isLoopOp] at this
      · split at hm <;> simp at hm
    · intro hm
      simp only [List.cons_append, List.mem_cons, List.mem_append] at hm
      rcases hm with hm | hm | hm
      · cases hm
      · have := hops _ hm
        simp [Op.isLoopOp] at this
      · split at hm <;> simp at hm

/-- C3: in every run of `handle_client`, an `SSL_read` that returned exactly the
four bytes `quit` is followed by one `SSL_write` of the prefix followed by
`quit`; then, whether the write succeeded or not, by `SSL_shutdown` and
`SSL_free` (after the `SSL_get_error` query when the write failed), and the
function returns. No read or write follows that write. -/
theorem quit_ends_session (fuel : Nat) (s : σ) (pre post : List Op) (num : Nat)
    (h : (handle_client ch fuel s).1 = pre ++ Op.SSL_read num ⟨4, quit_literal⟩ :: post) :
    ∃ w, post = Op.SSL_write (ack_literal ++ quit_literal) w ::
        ((if w ≤ 0 then [Op.SSL_get_error w] else []) ++ [Op.SSL_shutdown, Op.SSL_free]) ∧
      post.filter Op.isChannelOp =
        [Op.SSL_write (ack_literal ++ quit_literal) w, Op.SSL_shutdown, Op.SSL_free] ∧
      (handle_client ch fuel s).2 = .returned := by
  have hq : c_str (⟨4, quit_literal⟩ : ReadResult).data = quit_literal := by decide
  obtain ⟨w, ⟨hw, hp, hs⟩ | ⟨hw, -, hp, hs⟩ | ⟨-, hne, -⟩⟩ :=
    after_read ch fuel s pre post num ⟨4, quit_literal⟩ h (by decide) (by decide) (by decide)
  · rw [hq] at hp
    refine ⟨w, ?_, ?_, hs⟩
    · rw [hp, if_pos hw]; rfl
    · rw [hp]; simp [List.filter, Op.isChannelOp]
  · rw [hq] at hp
    refine ⟨w, ?_, ?_, hs⟩
    · rw [hp, if_neg (by omega)]; rfl
    · rw [hp]; simp [List.filter, Op.isChannelOp]
  · exact absurd hq hne

/-- C4 (as amended): in every run of `handle_client`, when an `SSL_read` returned
1 to 4095 bytes whose part before the first NUL byte is not `quit`, and the
`SSL_write` that follows succeeded, the next call is the `SSL_read` of the next
pass through the loop (unless the iteration bound of the model ends the trace
there): the session is not shut down. -/
theorem session_stays_active (fuel : Nat) (s : σ) (pre rest : List Op) (num : Nat)
    (r : ReadResult) (p : List Byte) (w : Int)
    (h : (handle_client ch fuel s).1 = pre ++ Op.SSL_read num r :: Op.SSL_write p w :: rest)
    (h0 : 1 ≤ r.ret) (h1 : r.ret ≤ 4095) (hlen : (r.data.length : Int) = r.ret)
    (hq : r.data.takeWhile (fun b => b != 0) ≠ quit_literal) (hw : 0 < w) :
    p = ack_literal ++ r.data.takeWhile (fun b => b != 0) ∧
    ((rest = [] ∧ (handle_client ch fuel s).2 = .out_of_fuel) ∨
      ∃ r1 rest1, rest = Op.SSL_read (BUFFER_SIZE - 1) r1 :: rest1) := by
  obtain ⟨w1, ⟨hw1, hp, -⟩ | ⟨-, hq1, -⟩ | ⟨-, -, ⟨hp, hs⟩ | ⟨r1, rest1, hp⟩⟩⟩ :=
    after_read ch fuel s pre _ num r h (by omega) h1 hlen
  · simp only [List.cons.injEq, Op.SSL_write.injEq] at hp
    omega
  · exact absurd hq1 hq
  · simp only [List.cons.injEq, Op.SSL_write.injEq] at hp
    obtain ⟨⟨rfl, rfl⟩, rfl⟩ := hp
    exact ⟨rfl, Or.inl ⟨rfl, hs⟩⟩
  · simp only [List.cons.injEq, Op.SSL_write.injEq] at hp
    obtain ⟨⟨rfl, rfl⟩, rfl⟩ := hp
    exact ⟨rfl, Or.inr ⟨r1, rest1, rfl⟩⟩

/-- C5: in every run of `handle_client`, nothing that follows an `SSL_read` or an
`SSL_write` that returned `<= 0` is an `SSL_read` or an `SSL_write`. -/
theorem no_io_after_failure (fuel : Nat) (s : σ) (pre post : List Op) (op : Op)
    (h : (handle_client ch fuel s).1 = pre ++ op :: post) (hf : op.failed = true) :
    ∀ o ∈ post, o.isRead = false ∧ o.isWrite = false := by
  cases op with
  | SSL_read num r =>
    have h0 : r.ret ≤ 0 := by simpa [Op.failed] using hf
    obtain ⟨hp, -⟩ := after_failed_read ch fuel s pre post num r h h0
    rw [hp]
    simp [Op.isRead, Op.isWrite]
  | SSL_write p w =>
    have h0 : w ≤ 0 := by simpa [Op.failed] using hf
    obtain ⟨pre0, r, rfl, hr⟩ := before_write ch fuel s pre post p w h
    have h2 : (handle_client ch fuel s).1 =
        pre0 ++ Op.SSL_read (BUFFER_SIZE - 1) r :: Op.SSL_write p w :: post := by
      rw [h]; simp
    obtain ⟨b0, -, ⟨-, hp, -⟩ | ⟨b1, resp, w1, -, ⟨-, hp, -⟩ | ⟨hw1, -, hp, -⟩ | ⟨hw1, -, ⟨hp, -⟩ | ⟨r1, rest1, hp⟩⟩⟩⟩ :=
      after_read_gen ch fuel s pre0 (Op.SSL_write p w :: post) _ r h2 hr
    · simp at hp
    · simp only [List.cons.injEq, Op.SSL_write.injEq] at hp
      obtain ⟨-, rfl⟩ := hp
      simp [Op.isRead, Op.isWrite]
    · simp only [List.cons.injEq, Op.SSL_write.injEq] at hp
      omega
    · simp only [List.cons.injEq, Op.SSL_write.injEq] at hp
      omega
    · simp only [List.cons.injEq, Op.SSL_write.injEq] at hp
      omega
  | _ => simp [Op.failed] at hf

end Session

/-! ## Termination on scripts -/

theorem scripted_write_reads (reads : List ReadResult) (writes : List Int) (p : List Byte) :
    ∃ w ws, scripted.SSL_write ⟨reads, writes⟩ p = (w, ⟨reads, ws⟩) := by
  cases writes with
  | nil => exact ⟨-1, [], rfl⟩
  | cons w ws => exact ⟨w, ws, rfl⟩

theorem scripted_loop_left (reads : List ReadResult) (writes : List Int) (b : List Byte)
    (hok : ∀ r ∈ reads, r.ok (BUFFER_SIZE - 1)) (hb : b.length = BUFFER_SIZE) :
    ∃ bytes, (handle_client_loop scripted (reads.length + 1) ⟨reads, writes⟩ b).2 =
      .left bytes := by
  induction reads generalizing writes b with
  | nil =>
    have hr : scripted.SSL_read ⟨[], writes⟩ (BUFFER_SIZE - 1) = (⟨0, []⟩, ⟨[], writes⟩) := rfl
    rw [loop_read_failed scripted _ _ _ b _ hr (by decide)]
    exact ⟨_, rfl⟩
  | cons r rs ih =>
    have hr : scripted.SSL_read ⟨r :: rs, writes⟩ (BUFFER_SIZE - 1) = (r, ⟨rs, writes⟩) := rfl
    by_cases h0 : r.ret ≤ 0
    · rw [loop_read_failed scripted _ _ _ b _ hr h0]
      exact ⟨_, rfl⟩
    · obtain ⟨h1, hlen⟩ := hok r (List.mem_cons_self _ _) (by omega)
      have h1 : r.ret ≤ 4095 := by
        simp only [BUFFER_SIZE] at h1
        exact_mod_cast h1
      obtain ⟨w, ws, hw⟩ := scripted_write_reads rs writes (ack_literal ++ c_str r.data)
      rw [List.length_cons,
        loop_read_ok scripted (rs.length + 1) _ _ _ b r w hb hr (by omega) h1 hlen hw]
      split
      · exact ⟨_, rfl⟩
      · split
        · exact ⟨_, rfl⟩
        · exact ih ws zeroed (fun r1 hr1 => hok r1 (List.mem_cons_of_mem _ hr1)) zeroed_length

/-- On every finite script whose reads honour the `SSL_read` contract,
`handle_client` returns: one unit of fuel per scripted read, and one more for
the read that finds the peer gone, is enough. -/
theorem scripted_session_returns (script : Script)
    (hok : ∀ r ∈ script.reads, r.ok (BUFFER_SIZE - 1)) :
    (handle_client scripted (script.reads.length + 1) script).2 = .returned := by
  obtain ⟨bytes, h⟩ := scripted_loop_left script.reads script.writes zeroed hok zeroed_length
  rw [handle_client_eq]
  simp only []
  rw [h]
  rfl

/-! ## The accept loop: `start` -/

/-- C8: a pass of the accept loop in which `accept` succeeded and `SSL_accept`
returned `<= 0` makes exactly these calls: it frees the TLS object once, closes
`client_fd` once, starts no `handle_client` thread, and the loop goes on with
the `accept` of the next pass. -/
theorem failed_handshake_is_released (client_fd accept_ret : Int) (rest : List (Int × Int))
    (hfd : 0 ≤ client_fd) (hacc : accept_ret ≤ 0) :
    start_iteration client_fd accept_ret =
      ([.accept client_fd, .SSL_new, .SSL_set_fd client_fd, .SSL_accept accept_ret,
        .ERR_print_errors_fp, .SSL_shutdown, .SSL_free, .close client_fd], false) ∧
    (start_iteration client_fd accept_ret).1.count Op.SSL_free = 1 ∧
    (start_iteration client_fd accept_ret).1.count (Op.close client_fd) = 1 ∧
    Op.spawn_handle_client ∉ (start_iteration client_fd accept_ret).1 ∧
    start_loop ((client_fd, accept_ret) :: rest) =
      (start_iteration client_fd accept_ret).1 ++ start_loop rest ∧
    (∀ fd2 ret2 rest2, rest = (fd2, ret2) :: rest2 →
      ∃ tail, start_loop ((client_fd, accept_ret) :: rest) =
        (start_iteration client_fd accept_ret).1 ++ Op.accept fd2 :: tail) := by
  have hit : start_iteration client_fd accept_ret =
      ([.accept client_fd, .SSL_new, .SSL_set_fd client_fd, .SSL_accept accept_ret,
        .ERR_print_errors_fp, .SSL_shutdown, .SSL_free, .close client_fd], false) := by
    unfold start_iteration
    rw [if_neg (by omega), if_pos hacc]
  refine ⟨hit, ?_, ?_, ?_, rfl, ?_⟩
  · rw [hit]; simp [List.count_cons]
  · rw [hit]; simp [List.count_cons]
  · rw [hit]; simp
  · rintro fd2 ret2 rest2 rfl
    simp only [start_loop]
    unfold start_iteration
    by_cases h1 : fd2 < 0
    · rw [if_pos h1]; exact ⟨_, rfl⟩
    · rw [if_neg h1]
      by_cases h2 : ret2 ≤ 0
      · rw [if_pos h2]; exact ⟨_, rfl⟩
      · rw [if_neg h2]; exact ⟨_, rfl⟩

/-- C8 for descriptor 5 and `SSL_accept` returning -1, followed by one more pass. -/
theorem failed_handshake_is_released_witness :
    (0 : Int) ≤ 5 ∧ (-1 : Int) ≤ 0 ∧
    (start_iteration 5 (-1) =
      ([.accept 5, .SSL_new, .SSL_set_fd 5, .SSL_accept (-1),
        .ERR_print_errors_fp, .SSL_shutdown, .SSL_free, .close 5], false) ∧
    (start_iteration 5 (-1)).1.count Op.SSL_free = 1 ∧
    (start_iteration 5 (-1)).1.count (Op.close 5) = 1 ∧
    Op.spawn_handle_client ∉ (start_iteration 5 (-1)).1 ∧
    start_loop ((5, -1) :: [(6, 1)]) = (start_iteration 5 (-1)).1 ++ start_loop [(6, 1)] ∧
    (∀ fd2 ret2 rest2, [((6 : Int), (1 : Int))] = (fd2, ret2) :: rest2 →
      ∃ tail, start_loop ((5, -1) :: [(6, 1)]) =
        (start_iteration 5 (-1)).1 ++ Op.accept fd2 :: tail)) :=
  ⟨by decide, by decide, failed_handshake_is_released 5 (-1) [(6, 1)] (by decide) (by decide)⟩

/-- No run of `handle_client` calls `close`: the function is handed the `SSL*` only. -/
theorem handle_client_never_closes {σ : Type} (ch : Channel σ) (fuel : Nat) (s : σ) (fd : Int) :
    Op.close fd ∉ (handle_client ch fuel s).1 := by
  rw [handle_client_eq]
  intro hm
  simp only [List.cons_append, List.mem_cons, List.mem_append] at hm
  rcases hm with hm | hm | hm
  · cases hm
  · have := loop_ops ch fuel s zeroed _ hm
    simp [Op.isLoopOp] at this
  · cases he : (handle_client_loop ch fuel s zeroed).2 with
    | left bytes =>
      rw [he] at hm
      simp only [ending, teardown] at hm
      split at hm <;> simp at hm
    | out_of_fuel => rw [he] at hm; simp [ending] at hm
    | fault => rw [he] at hm; simp [ending] at hm

/-- After a successful handshake nothing closes `client_fd`, on any exit path of
the session. -/
theorem accepted_fd_never_closed {σ : Type} (ch : Channel σ) (fuel : Nat) (s : σ)
    (client_fd accept_ret : Int) (hfd : 0 ≤ client_fd) (hacc : 0 < accept_ret) :
    Op.close client_fd ∉ (connection_trace ch fuel s client_fd accept_ret).1 := by
  unfold connection_trace start_iteration
  rw [if_neg (by omega), if_neg (by omega)]
  simp only [List.mem_append, not_or]
  exact ⟨by simp, handle_client_never_closes ch fuel s client_fd⟩

/-- C6, the code at a failing input: descriptor 5 is accepted, the handshake
succeeds, and the session ends (by the sentinel, by the peer closing, by a read
error, by a write error). The TLS object is freed once; `close(5)` is never
called, although the failed-handshake path of the same loop does call it. -/
theorem client_fd_left_open :
    connection_trace scripted 3 talk_script 5 1 =
      ([.accept 5, .SSL_new, .SSL_set_fd 5, .SSL_accept 1, .spawn_handle_client,
        .SSL_get_cipher, .SSL_read 4095 ⟨2, [104, 105]⟩,
        .SSL_write (ack_literal ++ [104, 105]) 22, .SSL_read 4095 ⟨4, quit_literal⟩,
        .SSL_write (ack_literal ++ quit_literal) 24, .SSL_shutdown, .SSL_free], .returned) ∧
    (∀ script ∈ [talk_script, nul_script, read_error_script, write_error_script],
      (connection_trace scripted 3 script 5 1).2 = .returned ∧
      (connection_trace scripted 3 script 5 1).1.count Op.SSL_free = 1 ∧
      (connection_trace scripted 3 script 5 1).1.count (Op.close 5) = 0) ∧
    (connection_trace scripted 3 talk_script 5 0).1.count (Op.close 5) = 1 := by
  decide

/-! ## A record longer than the read size -/

theorem stream_WF : stream.WF := by
  intro pending num
  cases pending with
  | nil => simp [stream, ReadResult.ok]
  | cons record rest =>
    simp only [stream]
    split
    · intro _; simp only []; constructor
      · exact_mod_cast (by assumption : record.length ≤ num)
      · trivial
    · intro _; simp only []; constructor
      · exact le_refl _
      · rw [List.length_take]
        have : num ≤ record.length := by omega
        exact_mod_cast Nat.min_eq_left this

/-- A record of `BUFFER_SIZE` bytes without NUL at the front of the stream takes
two passes through the loop: the first answers its first 4095 bytes, the second
answers its last byte. -/
theorem stream_oversize (M : List Byte) (rest : List (List Byte)) (fuel : Nat)
    (buffer : List Byte) (hb : buffer.length = BUFFER_SIZE)
    (hlen : M.length = BUFFER_SIZE) (hnul : (0 : Byte) ∉ M) :
    handle_client_loop stream (fuel + 2) (M :: rest) buffer =
      (Op.SSL_read 4095 ⟨4095, M.take 4095⟩ :: Op.SSL_write (ack_literal ++ M.take 4095) 4115 ::
        Op.SSL_read 4095 ⟨1, M.drop 4095⟩ :: Op.SSL_write (ack_literal ++ M.drop 4095) 21 ::
        (handle_client_loop stream fuel rest zeroed).1,
       (handle_client_loop stream fuel rest zeroed).2) := by
  have hack : ack_literal.length = 20 := by decide
  have hlen2 : M.length = 4096 := hlen
  have htake : (M.take 4095).length = 4095 := by rw [List.length_take]; omega
  have hdrop : (M.drop 4095).length = 1 := by rw [List.length_drop]; omega
  have hc1 : c_str (M.take 4095) = M.take 4095 :=
    c_str_of_no_nul _ (fun h => hnul (List.mem_of_mem_take h))
  have hc2 : c_str (M.drop 4095) = M.drop 4095 :=
    c_str_of_no_nul _ (fun h => hnul (List.mem_of_mem_drop h))
  have hq1 : ¬ M.take 4095 = quit_literal := by
    intro h
    have := congrArg List.length h
    rw [htake] at this
    simp [quit_literal] at this
  have hq2 : ¬ M.drop 4095 = quit_literal := by
    intro h
    have := congrArg List.length h
    rw [hdrop] at this
    simp [quit_literal] at this
  have hr1 : stream.SSL_read (M :: rest) (BUFFER_SIZE - 1) =
      (⟨4095, M.take 4095⟩, M.drop 4095 :: rest) := by
    simp [stream, BUFFER_SIZE, hlen2]
  have hw1 : stream.SSL_write (M.drop 4095 :: rest)
      (ack_literal ++ c_str (⟨4095, M.take 4095⟩ : ReadResult).data) =
        (4115, M.drop 4095 :: rest) := by
    simp [stream, hc1, hack, htake]
  have hr2 : stream.SSL_read (M.drop 4095 :: rest) (BUFFER_SIZE - 1) =
      (⟨1, M.drop 4095⟩, rest) := by
    simp [stream, BUFFER_SIZE, hdrop]
  have hw2 : stream.SSL_write rest
      (ack_literal ++ c_str (⟨1, M.drop 4095⟩ : ReadResult).data) = (21, rest) := by
    simp [stream, hc2, hack, hdrop]
  rw [loop_read_ok stream (fuel + 1) (M :: rest) _ _ buffer _ _ hb hr1
    (show (0 : Int) < 4095 by decide) (show (4095 : Int) ≤ 4095 by decide)
    (by simp [htake]) hw1]
  rw [if_neg (by decide), if_neg (by simpa [hc1] using hq1)]
  rw [loop_read_ok stream fuel _ _ _ zeroed _ _ zeroed_length hr2
    (show (0 : Int) < 1 by decide) (show (1 : Int) ≤ 4095 by decide)
    (by simp [hdrop]) hw2]
  rw [if_neg (by decide), if_neg (by simpa [hc2] using hq2)]
  simp only [hc1, hc2]
  rfl

theorem replicate_append_length (n : Nat) (a b : Byte) :
    (List.replicate n a ++ [b]).length = n + 1 := by
  rw [List.length_append, List.length_replicate, List.length_singleton]

theorem replicate_append_no_nul (n : Nat) (a b : Byte) (ha : a ≠ 0) (hb : b ≠ 0) :
    (0 : Byte) ∉ List.replicate n a ++ [b] := by
  intro h
  rw [List.mem_append] at h
  rcases h with h | h
  · exact ha (List.eq_of_mem_replicate h).symm
  · rw [List.mem_singleton] at h
    exact hb h.symm

theorem replicate_append_take (n : Nat) (a b : Byte) :
    (List.replicate n a ++ [b]).take n = List.replicate n a := by
  rw [List.take_append_of_le_length (by rw [List.length_replicate])]
  exact List.take_of_length_le (by rw [List.length_replicate])

theorem replicate_append_drop (n : Nat) (a b : Byte) :
    (List.replicate n a ++ [b]).drop n = [b] := by
  have h := List.drop_left (List.replicate n a) [b]
  rw [List.length_replicate] at h
  exact h

theorem oversize_record_length : oversize_record.length = BUFFER_SIZE :=
  replicate_append_length 4095 65 66

theorem oversize_record_no_nul : (0 : Byte) ∉ oversize_record :=
  replicate_append_no_nul 4095 65 66 (by decide) (by decide)

theorem oversize_record_take : oversize_record.take 4095 = List.replicate 4095 65 :=
  replicate_append_take 4095 65 66

theorem oversize_record_drop : oversize_record.drop 4095 = [66] :=
  replicate_append_drop 4095 65 66

/-- C7 (as amended): a pending record of exactly 4096 bytes without NUL is not
truncated. The first `SSL_read` returns its first 4095 bytes and the session
answers them; the 4096th byte stays pending, is returned by the next
`SSL_read` and is answered in a second response, the prefix followed by that
byte. -/
theorem oversize_record_answered_twice (M : List Byte) (rest : List (List Byte)) (fuel : Nat)
    (hlen : M.length = BUFFER_SIZE) (hnul : (0 : Byte) ∉ M) :
    M.take 4095 ++ M.drop 4095 = M ∧ (M.drop 4095).length = 1 ∧
    ∃ tail, (handle_client stream (fuel + 2) (M :: rest)).1 =
      Op.SSL_get_cipher ::
      Op.SSL_read 4095 ⟨4095, M.take 4095⟩ :: Op.SSL_write (ack_literal ++ M.take 4095) 4115 ::
      Op.SSL_read 4095 ⟨1, M.drop 4095⟩ :: Op.SSL_write (ack_literal ++ M.drop 4095) 21 ::
      tail := by
  refine ⟨List.take_append_drop 4095 M, ?_, ?_⟩
  · rw [List.length_drop, hlen]; rfl
  · rw [handle_client_eq, stream_oversize M rest fuel zeroed zeroed_length hlen hnul]
    exact ⟨_, rfl⟩

/-- C7 (as amended) on the record `oversize_record`. -/
theorem oversize_record_answered_twice_witness :
    oversize_record.length = BUFFER_SIZE ∧ (0 : Byte) ∉ oversize_record ∧
    (oversize_record.take 4095 ++ oversize_record.drop 4095 = oversize_record ∧
      (oversize_record.drop 4095).length = 1 ∧
      ∃ tail, (handle_client stream (1 + 2) (oversize_record :: [])).1 =
        Op.SSL_get_cipher ::
        Op.SSL_read 4095 ⟨4095, oversize_record.take 4095⟩ ::
        Op.SSL_write (ack_literal ++ oversize_record.take 4095) 4115 ::
        Op.SSL_read 4095 ⟨1, oversize_record.drop 4095⟩ ::
        Op.SSL_write (ack_literal ++ oversize_record.drop 4095) 21 :: tail) :=
  ⟨oversize_record_length, oversize_record_no_nul,
   oversize_record_answered_twice oversize_record [] 1 oversize_record_length
     oversize_record_no_nul⟩

/-- C7, the claim as stated fails: with the 4096-byte record `AAA...AB` pending,
the session sends two responses, and the second one carries the 4096th byte
`B`, which the claim says is discarded. -/
theorem oversize_record_last_byte_echoed :
    oversize_record.length = 4096 ∧ (0 : Byte) ∉ oversize_record ∧
    handle_client stream 3 [oversize_record] =
      ([.SSL_get_cipher,
        .SSL_read 4095 ⟨4095, List.replicate 4095 65⟩,
        .SSL_write (ack_literal ++ List.replicate 4095 65) 4115,
        .SSL_read 4095 ⟨1, [66]⟩,
        .SSL_write (ack_literal ++ [66]) 21,
        .SSL_read 4095 ⟨0, []⟩, .SSL_get_error 0, .SSL_shutdown, .SSL_free], .returned) := by
  refine ⟨oversize_record_length, oversize_record_no_nul, ?_⟩
  have hr : stream.SSL_read [] (BUFFER_SIZE - 1) = (⟨0, []⟩, []) := rfl
  rw [handle_client_eq,
    stream_oversize oversize_record [] 1 zeroed zeroed_length oversize_record_length
      oversize_record_no_nul,
    loop_read_failed stream 0 [] [] zeroed ⟨0, []⟩ hr (by decide),
    oversize_record_take, oversize_record_drop]
  rfl

/-! ## The buffer between passes -/

section Buffer

variable {σ : Type} (ch : Channel σ)

theorem WF_read (hwf : ch.WF) (s s1 : σ) (r : ReadResult)
    (hr : ch.SSL_read s (BUFFER_SIZE - 1) = (r, s1)) (h0 : 0 < r.ret) :
    r.ret ≤ 4095 ∧ (r.data.length : Int) = r.ret := by
  have h := hwf s (BUFFER_SIZE - 1)
  rw [hr] at h
  obtain ⟨h1, h2⟩ := h h0
  refine ⟨?_, h2⟩
  simp only [BUFFER_SIZE] at h1
  exact_mod_cast h1

/-- On a channel that honours the `SSL_read` contract the contents of the buffer
at the start of a pass do not matter. -/
theorem loop_buffer_irrelevant (hwf : ch.WF) (fuel : Nat) (s : σ) (b b1 : List Byte)
    (hb : b.length = BUFFER_SIZE) (hb1 : b1.length = BUFFER_SIZE) :
    handle_client_loop ch fuel s b = handle_client_loop ch fuel s b1 := by
  cases fuel with
  | zero => rfl
  | succ fuel =>
    rcases hr : ch.SSL_read s (BUFFER_SIZE - 1) with ⟨r, s1⟩
    by_cases h0 : r.ret ≤ 0
    · rw [loop_read_failed ch fuel s s1 b r hr h0, loop_read_failed ch fuel s s1 b1 r hr h0]
    · obtain ⟨h1, hlen⟩ := WF_read ch hwf s s1 r hr (by omega)
      rcases hw : ch.SSL_write s1 (ack_literal ++ c_str r.data) with ⟨w, s2⟩
      rw [loop_read_ok ch fuel s s1 s2 b r w hb hr (by omega) h1 hlen hw,
        loop_read_ok ch fuel s s1 s2 b1 r w hb1 hr (by omega) h1 hlen hw]

/-- On a channel that honours the `SSL_read` contract, deleting the `memset` of
line 152 changes nothing. -/
theorem no_memset_eq (hwf : ch.WF) (fuel : Nat) (s : σ) (b b1 : List Byte)
    (hb : b.length = BUFFER_SIZE) (hb1 : b1.length = BUFFER_SIZE) :
    handle_client_loop_no_memset ch fuel s b = handle_client_loop ch fuel s b1 := by
  induction fuel generalizing s b b1 with
  | zero => rfl
  | succ fuel ih =>
    rcases hr : ch.SSL_read s (BUFFER_SIZE - 1) with ⟨r, s1⟩
    by_cases h0 : r.ret ≤ 0
    · rw [loop_read_failed ch fuel s s1 b1 r hr h0, handle_client_loop_no_memset, hr]
      simp only []
      rw [if_neg (by omega)]
    · obtain ⟨h1, hlen⟩ := WF_read ch hwf s s1 r hr (by omega)
      have hlt : r.data.length < b.length := by
        rw [hb]; simp only [BUFFER_SIZE]; omega
      rcases hw : ch.SSL_write s1 (ack_literal ++ c_str r.data) with ⟨w, s2⟩
      have hw2 : ch.2 s1 (ack_literal ++ c_str r.data) = (w, s2) := hw
      rw [loop_read_ok ch fuel s s1 s2 b1 r w hb1 hr (by omega) h1 hlen hw,
        handle_client_loop_no_memset, hr]
      simp only []
      rw [if_pos (by omega), compose_response_store b _ _ hb (by omega) h1 hlen]
      simp only [hw2, c_str_store_set b _ hlt]
      rw [ih s2 ((store b r.data).set r.data.length 0) zeroed
        (by rw [List.length_set, store_length b r.data (by omega), hb]) zeroed_length]

/-- On a channel that honours the `SSL_read` contract every payload written is
the prefix followed by the C string of the bytes of the read just before. -/
theorem loop_write_payload (hwf : ch.WF) (fuel : Nat) (s : σ) (b : List Byte)
    (hb : b.length = BUFFER_SIZE) (pre post : List Op) (p : List Byte) (w : Int)
    (h : (handle_client_loop ch fuel s b).1 = pre ++ Op.SSL_write p w :: post) :
    ∃ pre0 r, pre = pre0 ++ [Op.SSL_read (BUFFER_SIZE - 1) r] ∧ 0 < r.ret ∧ r.ret ≤ 4095 ∧
      (r.data.length : Int) = r.ret ∧ p = ack_literal ++ c_str r.data := by
  obtain ⟨pre0, r, b0, b1, s0, s1, rfl, h0, hb0, hc, hr⟩ :=
    loop_before_write ch fuel s b hb pre post p w h
  obtain ⟨h1, hlen⟩ := WF_read ch hwf s0 s1 r hr h0
  rw [compose_response_store b0 r.data r.ret hb0 h0 h1 hlen] at hc
  simp only [Option.some.injEq, Prod.mk.injEq] at hc
  exact ⟨pre0, r, rfl, h0, h1, hlen, hc.2.symm⟩

theorem loop_no_fault (hwf : ch.WF) (fuel : Nat) (s : σ) (b : List Byte)
    (hb : b.length = BUFFER_SIZE) : (handle_client_loop ch fuel s b).2 ≠ .fault := by
  induction fuel generalizing s b with
  | zero => simp [handle_client_loop]
  | succ fuel ih =>
    obtain ⟨r, s1, hr, h | ⟨h0, hc, -⟩ | ⟨-, b1, resp, w, s2, -, -, ⟨-, h⟩ | ⟨-, -, h⟩ | ⟨-, -, h⟩⟩⟩ :=
      loop_cases ch fuel s b
    · rw [h.2]; simp
    · obtain ⟨h1, hlen⟩ := WF_read ch hwf s s1 r hr h0
      rw [compose_response_store b r.data r.ret hb h0 h1 hlen] at hc
      simp at hc
    · rw [h]; simp
    · rw [h]; simp
    · rw [h]; exact ih s2 zeroed zeroed_length

/-- C9: on a channel that honours the `SSL_read` contract, whatever the buffer
holds when a pass through the loop starts, every payload written is the prefix
followed by the bytes, up to the first NUL, of the `SSL_read` immediately
before it: a function of that read alone. The run from an arbitrary buffer is
the run from a zeroed buffer, and so is the run of the loop without the
`memset` of line 152. -/
theorem response_depends_on_current_read_only (hwf : ch.WF) (fuel : Nat) (s : σ)
    (b b1 : List Byte) (hb : b.length = BUFFER_SIZE) (hb1 : b1.length = BUFFER_SIZE) :
    (∀ pre post p w, (handle_client_loop ch fuel s b).1 = pre ++ Op.SSL_write p w :: post →
      ∃ pre0 r, pre = pre0 ++ [Op.SSL_read 4095 r] ∧
        p = ack_literal ++ r.data.takeWhile (fun x => x != 0)) ∧
    handle_client_loop ch fuel s b = handle_client_loop ch fuel s zeroed ∧
    handle_client_loop_no_memset ch fuel s b1 = handle_client_loop ch fuel s zeroed ∧
    (∀ pre post p w,
      (handle_client_loop_no_memset ch fuel s b1).1 = pre ++ Op.SSL_write p w :: post →
      ∃ pre0 r, pre = pre0 ++ [Op.SSL_read 4095 r] ∧
        p = ack_literal ++ r.data.takeWhile (fun x => x != 0)) := by
  refine ⟨?_, loop_buffer_irrelevant ch hwf fuel s b zeroed hb zeroed_length,
    no_memset_eq ch hwf fuel s b1 zeroed hb1 zeroed_length, ?_⟩
  · intro pre post p w h
    obtain ⟨pre0, r, hpre, -, -, -, hp⟩ := loop_write_payload ch hwf fuel s b hb pre post p w h
    exact ⟨pre0, r, hpre, hp⟩
  · intro pre post p w h
    rw [no_memset_eq ch hwf fuel s b1 zeroed hb1 zeroed_length] at h
    obtain ⟨pre0, r, hpre, -, -, -, hp⟩ :=
      loop_write_payload ch hwf fuel s zeroed zeroed_length pre post p w h
    exact ⟨pre0, r, hpre, hp⟩

/-- C10: on a channel that honours the `SSL_read` contract, no run of
`handle_client` stores the terminator outside the buffer. Every `SSL_read`
asks for 4095 bytes and returns at most 4095; for a positive return value
`bytes` the index `bytes` lies inside the 4096-byte array, the C string then
found in the buffer has at most `bytes` bytes and the response at most
`20 + bytes`. Every payload written has between 20 and 4115 bytes. -/
theorem reads_and_responses_bounded (hwf : ch.WF) (fuel : Nat) (s : σ) :
    (handle_client ch fuel s).2 ≠ .fault ∧
    (∀ num r, Op.SSL_read num r ∈ (handle_client ch fuel s).1 →
      num = 4095 ∧ r.ret ≤ 4095 ∧
      (0 < r.ret → r.ret.toNat < BUFFER_SIZE ∧
        ∀ buffer : List Byte, buffer.length = BUFFER_SIZE →
          ∃ buffer1 response,
            compose_response (store buffer r.data) r.ret = some (buffer1, response) ∧
            (c_str buffer1).length ≤ r.ret.toNat ∧
            response.length ≤ 20 + r.ret.toNat)) ∧
    (∀ p w, Op.SSL_write p w ∈ (handle_client ch fuel s).1 →
      0 < p.length ∧ p.length ≤ 4115) := by
  have hack : ack_literal.length = 20 := by decide
  refine ⟨?_, ?_, ?_⟩
  · rw [handle_client_eq]
    have := loop_no_fault ch hwf fuel s zeroed zeroed_length
    cases he : (handle_client_loop ch fuel s zeroed).2 <;> simp_all [LoopExit.status]
  · intro num r hm
    obtain ⟨pre, post, h⟩ := List.append_of_mem hm
    obtain ⟨pre0, post0, -, hl, -⟩ :=
      handle_client_split_at ch fuel s pre post (Op.SSL_read num r) (Or.inl rfl) h
    obtain ⟨fuel1, s0, s1, b0, -, hnum, hr, -, -⟩ :=
      loop_split ch fuel s zeroed zeroed_length pre0 post0 num r hl
    refine ⟨hnum, ?_, ?_⟩
    · by_cases h0 : 0 < r.ret
      · exact (WF_read ch hwf s0 s1 r hr h0).1
      · omega
    · intro h0
      obtain ⟨h1, hlen⟩ := WF_read ch hwf s0 s1 r hr h0
      refine ⟨by simp only [BUFFER_SIZE]; omega, ?_⟩
      intro buffer hbuf
      have hlt : r.data.length < buffer.length := by
        rw [hbuf]; simp only [BUFFER_SIZE]; omega
      refine ⟨_, _, compose_response_store buffer r.data r.ret hbuf h0 h1 hlen, ?_, ?_⟩
      · rw [c_str_store_set buffer r.data hlt]
        have := c_str_length_le r.data
        omega
      · rw [List.length_append, hack]
        have := c_str_length_le r.data
        omega
  · intro p w hm
    obtain ⟨pre, post, h⟩ := List.append_of_mem hm
    obtain ⟨pre0, post0, -, hl, -⟩ :=
      handle_client_split_at ch fuel s pre post (Op.SSL_write p w) (Or.inr rfl) h
    obtain ⟨pre1, r, -, -, h1, hlen, rfl⟩ :=
      loop_write_payload ch hwf fuel s zeroed zeroed_length pre0 post0 p w hl
    rw [List.length_append, hack]
    have := c_str_length_le r.data
    omega

end Buffer

theorem junk_buffer_length : junk_buffer.length = BUFFER_SIZE :=
  List.length_replicate _ _

/-- C9 on a stream that delivers `hi`, started with a buffer full of `0xFF`. -/
theorem response_depends_on_current_read_only_witness :
    stream.WF ∧ junk_buffer.length = BUFFER_SIZE ∧
    ((∀ pre post p w,
        (handle_client_loop stream 3 [[104, 105]] junk_buffer).1 =
          pre ++ Op.SSL_write p w :: post →
        ∃ pre0 r, pre = pre0 ++ [Op.SSL_read 4095 r] ∧
          p = ack_literal ++ r.data.takeWhile (fun x => x != 0)) ∧
      handle_client_loop stream 3 [[104, 105]] junk_buffer =
        handle_client_loop stream 3 [[104, 105]] zeroed ∧
      handle_client_loop_no_memset stream 3 [[104, 105]] junk_buffer =
        handle_client_loop stream 3 [[104, 105]] zeroed ∧
      (∀ pre post p w,
        (handle_client_loop_no_memset stream 3 [[104, 105]] junk_buffer).1 =
          pre ++ Op.SSL_write p w :: post →
        ∃ pre0 r, pre = pre0 ++ [Op.SSL_read 4095 r] ∧
          p = ack_literal ++ r.data.takeWhile (fun x => x != 0))) :=
  ⟨stream_WF, junk_buffer_length,
   response_depends_on_current_read_only stream stream_WF 3 [[104, 105]] junk_buffer junk_buffer
     junk_buffer_length junk_buffer_length⟩

/-- C10 on a stream that delivers `hi`. -/
theorem reads_and_responses_bounded_witness :
    stream.WF ∧
    ((handle_client stream 3 [[104, 105]]).2 ≠ .fault ∧
      (∀ num r, Op.SSL_read num r ∈ (handle_client stream 3 [[104, 105]]).1 →
        num = 4095 ∧ r.ret ≤ 4095 ∧
        (0 < r.ret → r.ret.toNat < BUFFER_SIZE ∧
          ∀ buffer : List Byte, buffer.length = BUFFER_SIZE →
            ∃ buffer1 response,
              compose_response (store buffer r.data) r.ret = some (buffer1, response) ∧
              (c_str buffer1).length ≤ r.ret.toNat ∧
              response.length ≤ 20 + r.ret.toNat)) ∧
      (∀ p w, Op.SSL_write p w ∈ (handle_client stream 3 [[104, 105]]).1 →
        0 < p.length ∧ p.length ≤ 4115)) :=
  ⟨stream_WF, reads_and_responses_bounded stream stream_WF 3 [[104, 105]]⟩


/-! ## Concrete runs -/

/-- The four ways out of the session, each on a concrete script: the sentinel,
the peer closing (read returns 0), a read error, a write error. -/
theorem four_exit_paths :
    handle_client scripted 3 talk_script =
      ([.SSL_get_cipher, .SSL_read 4095 ⟨2, [104, 105]⟩, .SSL_write (ack_literal ++ [104, 105]) 22,
        .SSL_read 4095 ⟨4, quit_literal⟩, .SSL_write (ack_literal ++ quit_literal) 24,
        .SSL_shutdown, .SSL_free], .returned) ∧
    handle_client scripted 3 nul_script =
      ([.SSL_get_cipher, .SSL_read 4095 ⟨3, [97, 0, 98]⟩, .SSL_write (ack_literal ++ [97]) 21,
        .SSL_read 4095 ⟨0, []⟩, .SSL_get_error 0, .SSL_shutdown, .SSL_free], .returned) ∧
    handle_client scripted 3 read_error_script =
      ([.SSL_get_cipher, .SSL_read 4095 ⟨2, [104, 105]⟩, .SSL_write (ack_literal ++ [104, 105]) 22,
        .SSL_read 4095 ⟨-1, []⟩, .SSL_get_error (-1), .SSL_shutdown, .SSL_free], .returned) ∧
    handle_client scripted 3 write_error_script =
      ([.SSL_get_cipher, .SSL_read 4095 ⟨2, [104, 105]⟩,
        .SSL_write (ack_literal ++ [104, 105]) (-1), .SSL_get_error (-1),
        .SSL_shutdown, .SSL_free], .returned) := by
  decide

/-- C1, the claim as stated fails: the read returns the 3 bytes `a`, NUL, `b`, and
the write that follows carries the prefix and `a` only, 21 bytes instead of 23. -/
theorem nul_message_not_echoed_verbatim :
    (handle_client scripted 2 nul_script).1 =
      [.SSL_get_cipher, .SSL_read 4095 ⟨3, [97, 0, 98]⟩, .SSL_write (ack_literal ++ [97]) 21,
        .SSL_read 4095 ⟨0, []⟩, .SSL_get_error 0, .SSL_shutdown, .SSL_free] ∧
    (ack_literal ++ [97] : List Byte) ≠ ack_literal ++ [97, 0, 98] ∧
    (ack_literal ++ [97] : List Byte).length ≠ 20 + 3 := by
  decide

/-- C1 (as amended) on the run of `nul_script`: the read of `a`, NUL, `b` is answered by
the prefix followed by `a`. -/
theorem read_is_answered_by_one_write_witness :
    ((handle_client scripted 2 nul_script).1 =
        [.SSL_get_cipher] ++ .SSL_read 4095 ⟨3, [97, 0, 98]⟩ ::
          [.SSL_write (ack_literal ++ [97]) 21, .SSL_read 4095 ⟨0, []⟩, .SSL_get_error 0,
            .SSL_shutdown, .SSL_free]) ∧
    (ack_literal.length = 20 ∧
      (∃ w rest, [Op.SSL_write (ack_literal ++ [97]) 21, .SSL_read 4095 ⟨0, []⟩, .SSL_get_error 0,
            .SSL_shutdown, .SSL_free] =
          Op.SSL_write (ack_literal ++
            (⟨3, [97, 0, 98]⟩ : ReadResult).data.takeWhile (fun b => b != 0)) w :: rest ∧
        ∀ o, rest.head? = some o → o.isWrite = false) ∧
      ((0 : Byte) ∉ (⟨3, [97, 0, 98]⟩ : ReadResult).data →
        ∃ w rest, [Op.SSL_write (ack_literal ++ [97]) 21, .SSL_read 4095 ⟨0, []⟩, .SSL_get_error 0,
              .SSL_shutdown, .SSL_free] =
            Op.SSL_write (ack_literal ++ (⟨3, [97, 0, 98]⟩ : ReadResult).data) w :: rest ∧
          ((ack_literal ++ (⟨3, [97, 0, 98]⟩ : ReadResult).data).length : Int) =
            20 + (⟨3, [97, 0, 98]⟩ : ReadResult).ret)) :=
  ⟨by decide,
   read_is_answered_by_one_write scripted 2 nul_script [.SSL_get_cipher] _ 4095 ⟨3, [97, 0, 98]⟩
     (by decide) (by decide) (by decide) (by decide)⟩

/-- C2 on the run of `talk_script`, which returns after the sentinel. -/
theorem shutdown_and_free_once_at_end_witness :
    (handle_client scripted 3 talk_script).2 = .returned ∧
    ∃ pre, (handle_client scripted 3 talk_script).1 = pre ++ [Op.SSL_shutdown, Op.SSL_free] ∧
      Op.SSL_shutdown ∉ pre ∧ Op.SSL_free ∉ pre :=
  ⟨by decide, shutdown_and_free_once_at_end scripted 3 talk_script (by decide)⟩

/-- C3 on the run of `talk_script`, at its second read, which returns `quit`. -/
theorem quit_ends_session_witness :
    (handle_client scripted 3 talk_script).1 =
        [.SSL_get_cipher, .SSL_read 4095 ⟨2, [104, 105]⟩,
          .SSL_write (ack_literal ++ [104, 105]) 22] ++
        .SSL_read 4095 ⟨4, quit_literal⟩ ::
          [.SSL_write (ack_literal ++ quit_literal) 24, .SSL_shutdown, .SSL_free] ∧
    ∃ w, [Op.SSL_write (ack_literal ++ quit_literal) 24, .SSL_shutdown, .SSL_free] =
        Op.SSL_write (ack_literal ++ quit_literal) w ::
          ((if w ≤ 0 then [Op.SSL_get_error w] else []) ++ [Op.SSL_shutdown, Op.SSL_free]) ∧
      [Op.SSL_write (ack_literal ++ quit_literal) 24, .SSL_shutdown, .SSL_free].filter
          Op.isChannelOp =
        [Op.SSL_write (ack_literal ++ quit_literal) w, Op.SSL_shutdown, Op.SSL_free] ∧
      (handle_client scripted 3 talk_script).2 = .returned :=
  ⟨by decide,
   quit_ends_session scripted 3 talk_script
     [.SSL_get_cipher, .SSL_read 4095 ⟨2, [104, 105]⟩, .SSL_write (ack_literal ++ [104, 105]) 22]
     _ 4095 (by decide)⟩

/-- C4, the claim as stated fails: the message `quit`, NUL, `x` is not the four
bytes `quit`, its write succeeds, and yet the session is shut down: no further
`SSL_read` follows. -/
theorem quit_nul_message_ends_session :
    (handle_client scripted 2 quit_nul_script).1 =
      [.SSL_get_cipher, .SSL_read 4095 ⟨6, [113, 117, 105, 116, 0, 120]⟩,
        .SSL_write (ack_literal ++ quit_literal) 24, .SSL_shutdown, .SSL_free] ∧
    ([113, 117, 105, 116, 0, 120] : List Byte) ≠ quit_literal ∧ (0 : Int) < 24 := by
  decide

/-- C4 (as amended) on the run of `talk_script`, at its first read, which returns `hi`. -/
theorem session_stays_active_witness :
    ((handle_client scripted 3 talk_script).1 =
        [.SSL_get_cipher] ++ .SSL_read 4095 ⟨2, [104, 105]⟩ ::
          .SSL_write (ack_literal ++ [104, 105]) 22 ::
          [.SSL_read 4095 ⟨4, quit_literal⟩, .SSL_write (ack_literal ++ quit_literal) 24,
            .SSL_shutdown, .SSL_free]) ∧
    ((ack_literal ++ [104, 105] : List Byte) =
        ack_literal ++ (⟨2, [104, 105]⟩ : ReadResult).data.takeWhile (fun b => b != 0) ∧
      (([Op.SSL_read 4095 ⟨4, quit_literal⟩, .SSL_write (ack_literal ++ quit_literal) 24,
            .SSL_shutdown, .SSL_free] = [] ∧
          (handle_client scripted 3 talk_script).2 = .out_of_fuel) ∨
        ∃ r1 rest1, [Op.SSL_read 4095 ⟨4, quit_literal⟩,
            .SSL_write (ack_literal ++ quit_literal) 24, .SSL_shutdown, .SSL_free] =
          Op.SSL_read (BUFFER_SIZE - 1) r1 :: rest1)) :=
  ⟨by decide,
   session_stays_active scripted 3 talk_script [.SSL_get_cipher] _ 4095 ⟨2, [104, 105]⟩ _ 22
     (by decide) (by decide) (by decide) (by decide) (by decide) (by decide)⟩

/-- C5 on the run of `write_error_script`, at its failed write. -/
theorem no_io_after_failure_witness :
    ((handle_client scripted 3 write_error_script).1 =
        [.SSL_get_cipher, .SSL_read 4095 ⟨2, [104, 105]⟩] ++
          .SSL_write (ack_literal ++ [104, 105]) (-1) ::
          [.SSL_get_error (-1), .SSL_shutdown, .SSL_free]) ∧
    (Op.SSL_write (ack_literal ++ [104, 105]) (-1)).failed = true ∧
    ∀ o ∈ [Op.SSL_get_error (-1), .SSL_shutdown, .SSL_free],
      o.isRead = false ∧ o.isWrite = false :=
  ⟨by decide, by decide,
   no_io_after_failure scripted 3 write_error_script
     [.SSL_get_cipher, .SSL_read 4095 ⟨2, [104, 105]⟩] _
     (.SSL_write (ack_literal ++ [104, 105]) (-1)) (by decide) (by decide)⟩

end SSLServer
